import Mathlib

/-!
Verification of the milvus-diagnostic-platform crash-diagnostic pipeline.

This file shallowly embeds the Go source of the repository: pure functions
become Lean functions over `Int`/`ℚ`/`String`, Go `time.Time` values become
`Int` seconds, Go `float64` score arithmetic becomes `ℚ` (every constant in
the scoring code is an exact decimal), and Go maps become association lists.
Each section names the source file and function it embeds.
-/

namespace MDP

/-! ## Go string primitives

`listStartsWith needle hay` is `true` iff `needle` is a leading segment of
`hay`; `listHasSeq needle hay` is `true` iff `needle` occurs contiguously in
`hay`.  `goContains s sub` embeds Go `strings.Contains(s, sub)`,
`goToLower` embeds `strings.ToLower` (ASCII-relevant part, via
`Char.toLower`), and `goToUpper` embeds `strings.ToUpper`. -/

def listStartsWith : List Char → List Char → Bool
  | [], _ => true
  | _ :: _, [] => false
  | a :: as, b :: bs => a == b && listStartsWith as bs

def listHasSeq (needle : List Char) : List Char → Bool
  | [] => listStartsWith needle []
  | c :: rest => listStartsWith needle (c :: rest) || listHasSeq needle rest

def goContains (s sub : String) : Bool :=
  listHasSeq sub.data s.data

def goToLower (s : String) : String :=
  ⟨s.data.map Char.toLower⟩

def goToUpper (s : String) : String :=
  ⟨s.data.map Char.toUpper⟩

/-! ## Data model (pkg/collector types, mirrored in pkg/testutil/mock_k8s.go)

Fields not read by any embedded function are kept when cheap; Go `time.Time`
fields are `Int` (seconds since epoch). -/

/-- Go `CodeSuggestion` (collector types). -/
structure CodeSuggestion where
  file : String
  funcName : String
  lineNumber : Int
  issue : String
  suggestion : String
  priority : String
  deriving DecidableEq, Repr

/-- Go `AIAnalysisResult` (collector types). -/
structure AIAnalysisResult where
  enabled : Bool
  provider : String
  model : String
  analysisTime : Int
  summary : String
  rootCause : String
  impact : String
  recommendations : List String
  confidence : ℚ
  tokensUsed : Int
  costUSD : ℚ
  errorMessage : String
  relatedIssues : List String
  codeSuggestions : List CodeSuggestion
  deriving DecidableEq, Repr

/-- Go `AnalysisResults` (collector types).  `libraryVersions` and
`registerInfo` are Go maps, embedded as association lists. -/
structure AnalysisResults where
  stackTrace : String
  crashReason : String
  crashAddress : String
  threadCount : Int
  libraryVersions : List (String × String)
  registerInfo : List (String × String)
  sharedLibraries : List String
  aiAnalysis : Option AIAnalysisResult
  deriving DecidableEq, Repr

/-- Go `FileStatus` (collector types). -/
inductive FileStatus where
  | discovered | processing | analyzed | stored | skipped | error
  deriving DecidableEq, Repr

/-- Go `CoredumpFile` (collector types); the fields read by the embedded
functions, with times as `Int` seconds. -/
structure CoredumpFile where
  path : String
  fileName : String
  size : Int
  modTime : Int
  pid : Int
  uid : Int
  gid : Int
  signal : Int
  timestamp : Int
  executable : String
  podName : String
  podNamespace : String
  containerName : String
  instanceName : String
  isAnalyzed : Bool
  valueScore : ℚ
  status : FileStatus
  errorMessage : String
  deriving DecidableEq, Repr

/-! ## Analyzer value scoring (pkg/analyzer/analyzer.go, calculateValueScore)

A direct transliteration of the Go function: sequential `score`
accumulation over `ℚ`, with `time.Since(coredump.ModTime) < time.Hour`
rendered as `now - coredump.modTime < 3600`.  Go `len(s)` is the byte
length, rendered as `String.utf8ByteSize`. -/

def calculateValueScore (now : Int) (panicKeywords : List String)
    (coredump : CoredumpFile) (results : AnalysisResults) : ℚ :=
  let score : ℚ := 5  -- base score
  let score :=
    if results.crashReason ≠ "" then
      let score := score + 2
      if panicKeywords.any fun keyword =>
          goContains (goToLower results.crashReason) (goToLower keyword) then
        score + 1
      else score
    else score
  let score :=
    if results.stackTrace ≠ "" ∧ results.stackTrace.utf8ByteSize > 100 then
      score + 1.5
    else score
  let score := if results.threadCount > 1 then score + 0.5 else score
  let score :=
    if coredump.podName ≠ "" ∧ coredump.instanceName ≠ "" then score + 1
    else score
  let score :=
    if coredump.signal = 11 ∨ coredump.signal = 6 ∨ coredump.signal = 8 then
      score + 1
    else score
  let score := if coredump.size > 100 * 1024 * 1024 then score + 0.5 else score
  let score := if now - coredump.modTime < 3600 then score + 0.5 else score
  -- AI analysis bonus scoring
  let score :=
    match results.aiAnalysis with
    | some ai =>
      if ai.enabled = true ∧ ai.errorMessage = "" then
        let score :=
          if ai.confidence > 0.8 then score + 1.5
          else if ai.confidence > 0.6 then score + 1
          else if ai.confidence > 0.4 then score + 0.5
          else score
        let score := if ai.recommendations.length > 0 then score + 0.5 else score
        let score :=
          if ai.codeSuggestions.length > 0 then
            let score := score + 0.5
            if ai.codeSuggestions.any fun s => s.priority = "high" then score + 0.3
            else score
          else score
        if ai.relatedIssues.length > 0 then score + 0.3 else score
      else score
    | none => score
  if score > 10 then 10 else score

/-! ## Closed-form decomposition of the value score

The scoring dimensions of `calculateValueScore`, written as separate
contribution terms so that the accumulated score can be stated as
`min 10 (5 + Σ contributions)`. -/

/-- Crash-reason dimensions: +2 for a non-empty reason, +1 more (at most
once) when the lowercased reason contains a configured panic keyword. -/
def crashScore (panicKeywords : List String) (r : AnalysisResults) : ℚ :=
  if r.crashReason ≠ "" then
    2 + (if panicKeywords.any fun keyword =>
        goContains (goToLower r.crashReason) (goToLower keyword) then (1 : ℚ)
      else 0)
  else 0

/-- Stack-trace dimension: +1.5 when the trace is longer than 100 bytes. -/
def stackScore (r : AnalysisResults) : ℚ :=
  if r.stackTrace.utf8ByteSize > 100 then 1.5 else 0

/-- Multi-thread dimension. -/
def threadScore (r : AnalysisResults) : ℚ :=
  if r.threadCount > 1 then 0.5 else 0

/-- Pod-association dimension. -/
def podScore (f : CoredumpFile) : ℚ :=
  if f.podName ≠ "" ∧ f.instanceName ≠ "" then 1 else 0

/-- Signal-severity dimension. -/
def signalScore (f : CoredumpFile) : ℚ :=
  if f.signal = 11 ∨ f.signal = 6 ∨ f.signal = 8 then 1 else 0

/-- File-size dimension (100 MiB threshold). -/
def sizeScore (f : CoredumpFile) : ℚ :=
  if f.size > 100 * 1024 * 1024 then 0.5 else 0

/-- Freshness dimension (modified within the last hour). -/
def freshScore (now : Int) (f : CoredumpFile) : ℚ :=
  if now - f.modTime < 3600 then 0.5 else 0

/-- Confidence tier of the AI bonus. -/
def aiConfidenceScore (ai : AIAnalysisResult) : ℚ :=
  if ai.confidence > 0.8 then 1.5
  else if ai.confidence > 0.6 then 1
  else if ai.confidence > 0.4 then 0.5
  else 0

/-- The whole AI-analysis bonus: active only for a present, enabled,
error-free `AIAnalysisResult`. -/
def aiScore : Option AIAnalysisResult → ℚ
  | some ai =>
    if ai.enabled = true ∧ ai.errorMessage = "" then
      aiConfidenceScore ai
        + (if ai.recommendations.length > 0 then (0.5 : ℚ) else 0)
        + (if ai.codeSuggestions.length > 0 then
            (0.5 : ℚ) + (if ai.codeSuggestions.any fun s => s.priority = "high" then
              (0.3 : ℚ) else 0)
          else 0)
        + (if ai.relatedIssues.length > 0 then (0.3 : ℚ) else 0)
    else 0
  | none => 0

/-- The value score as a clamped sum of the contribution terms.  The bridge
lemma `calculateValueScore_eq_formula` proves this equal to the
transliterated `calculateValueScore`. -/
def valueScoreFormula (now : Int) (panicKeywords : List String)
    (f : CoredumpFile) (r : AnalysisResults) : ℚ :=
  min 10 (5 + crashScore panicKeywords r + stackScore r + threadScore r
    + podScore f + signalScore f + sizeScore f + freshScore now f
    + aiScore r.aiAnalysis)

/-! Accumulation-rewriting lemmas used to relate the sequential Go-style
accumulation with the sum-of-contributions form. -/

lemma ite_acc₁ (c : Prop) [Decidable c] (s x : ℚ) :
    (if c then s + x else s) = s + (if c then x else 0) := by
  split_ifs <;> simp

lemma ite_acc₂ (c : Prop) [Decidable c] (s x y : ℚ) :
    (if c then s + x + y else s) = s + (if c then x + y else 0) := by
  split_ifs <;> ring

lemma ite_acc₃ (c : Prop) [Decidable c] (s x y : ℚ) :
    (if c then s + x else s + y) = s + (if c then x else y) := by
  split_ifs <;> ring

lemma ite_acc₄ (c : Prop) [Decidable c] (s a b d e : ℚ) :
    (if c then s + a + b + d + e else s) = s + (if c then a + b + d + e else 0) := by
  split_ifs <;> ring

lemma clamp_eq_min (s : ℚ) : (if s > 10 then (10 : ℚ) else s) = min 10 s := by
  split_ifs with h
  · exact (min_eq_left h.le).symm
  · exact (min_eq_right (not_lt.mp h)).symm

lemma stack_cond_eq (r : AnalysisResults) (x y : ℚ) :
    (if r.stackTrace ≠ "" ∧ r.stackTrace.utf8ByteSize > 100 then x else y)
      = if r.stackTrace.utf8ByteSize > 100 then x else y := by
  refine if_congr ⟨fun h => h.2, fun h => ⟨fun he => ?_, h⟩⟩ rfl rfl
  rw [he] at h
  exact absurd h (by decide)

/-- Bridge: the transliterated score equals the clamped
sum-of-contributions form. -/
lemma calculateValueScore_eq_formula (now : Int) (panicKeywords : List String)
    (f : CoredumpFile) (r : AnalysisResults) :
    calculateValueScore now panicKeywords f r
      = valueScoreFormula now panicKeywords f r := by
  rcases hai : r.aiAnalysis with _ | ai
  all_goals
    simp only [calculateValueScore, valueScoreFormula, crashScore, stackScore,
      threadScore, podScore, signalScore, sizeScore, freshScore, aiScore,
      aiConfidenceScore, hai, stack_cond_eq, ite_acc₁, ite_acc₂, ite_acc₃,
      ite_acc₄, clamp_eq_min]
  all_goals try (congr 1; ring)

/-- The §4.3 "normative formula" exactly as claim C1 states it: a base of
4.0, the eight dimension bonuses, no AI contribution, clamped to 10.0.
This follows the claim's words and is compared against the source-derived
`calculateValueScore`. -/
def specScoreC1 (now : Int) (panicKeywords : List String)
    (f : CoredumpFile) (r : AnalysisResults) : ℚ :=
  min 10 (4
    + (if r.crashReason ≠ "" then (2 : ℚ) else 0)
    + (if panicKeywords.any fun keyword =>
        goContains (goToLower r.crashReason) (goToLower keyword) then (1 : ℚ)
      else 0)
    + stackScore r + threadScore r + podScore f + signalScore f
    + sizeScore f + freshScore now f)

/-! ## Concrete fixtures for counterexamples and witnesses -/

/-- A coredump record with no pod association, signal 0, a tiny size and a
modification time far in the past (evaluated at `now = 100000`). -/
def fEmpty : CoredumpFile :=
  { path := "/var/dumps/x", fileName := "x", size := 1, modTime := 0,
    pid := 0, uid := 0, gid := 0, signal := 0, timestamp := 0,
    executable := "", podName := "", podNamespace := "", containerName := "",
    instanceName := "", isAnalyzed := false, valueScore := 0,
    status := .discovered, errorMessage := "" }

/-- Analysis results with every dimension empty (the shape produced when
nothing could be extracted). -/
def rEmpty : AnalysisResults :=
  { stackTrace := "", crashReason := "", crashAddress := "", threadCount := 1,
    libraryVersions := [], registerInfo := [], sharedLibraries := [],
    aiAnalysis := none }

/-- An enabled, error-free, high-confidence AI analysis result. -/
def aiHigh : AIAnalysisResult :=
  { enabled := true, provider := "glm", model := "glm-4", analysisTime := 0,
    summary := "s", rootCause := "", impact := "", recommendations := [],
    confidence := 0.9, tokensUsed := 100, costUSD := 0.01, errorMessage := "",
    relatedIssues := [], codeSuggestions := [] }

/-- A disabled AI analysis result (the shape recorded when AI analysis is
switched off). -/
def aiOff : AIAnalysisResult :=
  { enabled := false, provider := "", model := "", analysisTime := 0,
    summary := "", rootCause := "", impact := "", recommendations := [],
    confidence := 0, tokensUsed := 0, costUSD := 0, errorMessage := "",
    relatedIssues := [], codeSuggestions := [] }

lemma utf8ByteSize_empty : "".utf8ByteSize = 0 := by decide

lemma eval_score_empty : calculateValueScore 100000 [] fEmpty rEmpty = 5 := by
  rw [calculateValueScore_eq_formula]
  norm_num [valueScoreFormula, crashScore, stackScore, threadScore, podScore,
    signalScore, sizeScore, freshScore, aiScore, fEmpty, rEmpty,
    utf8ByteSize_empty]

lemma eval_specC1_empty : specScoreC1 100000 [] fEmpty rEmpty = 4 := by
  norm_num [specScoreC1, stackScore, threadScore, podScore, signalScore,
    sizeScore, freshScore, fEmpty, rEmpty, utf8ByteSize_empty]

lemma eval_score_aiHigh :
    calculateValueScore 100000 [] fEmpty { rEmpty with aiAnalysis := some aiHigh }
      = 6.5 := by
  rw [calculateValueScore_eq_formula]
  norm_num [valueScoreFormula, crashScore, stackScore, threadScore, podScore,
    signalScore, sizeScore, freshScore, aiScore, aiConfidenceScore, fEmpty,
    rEmpty, aiHigh, utf8ByteSize_empty]

/-! ## Claim C1 -/

/-- C1 (counterexample): the analyzer's value score does not satisfy the
§4.3 formula as stated.  On a dump with every dimension empty the code
(`calculateValueScore`, base 5.0) yields 5.0 while the claimed formula
(`specScoreC1`, base 4.0) yields 4.0. -/
theorem c1_counterexample_base_score :
    calculateValueScore 100000 [] fEmpty rEmpty
      ≠ specScoreC1 100000 [] fEmpty rEmpty := by
  rw [eval_score_empty, eval_specC1_empty]
  norm_num

/-- C1 (amended): for every CoredumpFile and AnalysisResults the analyzer's
value score equals the formula with a base of 5.0 (not 4.0): 5.0, plus 2.0
for a non-empty CrashReason plus 1.0 (at most once) when the lowercased
CrashReason contains a configured panic keyword, plus 1.5 when the stack
trace exceeds 100 bytes, plus 0.5 for ThreadCount > 1, plus 1.0 when both
PodName and InstanceName are set, plus 1.0 for Signal ∈ {11, 6, 8}, plus
0.5 for Size > 100 MiB, plus 0.5 when modified within the last hour, plus —
contrary to the claim — an AI bonus for a present, enabled, error-free
AIAnalysis (+1.5/+1.0/+0.5 by confidence tier, +0.5 for recommendations,
+0.5 for code suggestions with +0.3 more if any is high-priority, +0.3 for
related issues), the sum clamped to 10.0. -/
theorem c1_amended_value_score_formula (now : Int) (panicKeywords : List String)
    (f : CoredumpFile) (r : AnalysisResults) :
    calculateValueScore now panicKeywords f r
      = valueScoreFormula now panicKeywords f r :=
  calculateValueScore_eq_formula now panicKeywords f r

/-! ## Claim C5 -/

/-- C5 (counterexample): the value score is not independent of the LLM
enrichment.  Two AnalysisResults that differ only in their AIAnalysis field
— `none` versus an enabled, error-free, confidence-0.9 result — score 5.0
and 6.5 respectively. -/
theorem c5_counterexample_ai_affects_score :
    calculateValueScore 100000 [] fEmpty rEmpty
      ≠ calculateValueScore 100000 [] fEmpty
          { rEmpty with aiAnalysis := some aiHigh } := by
  rw [eval_score_empty, eval_score_aiHigh]
  norm_num

/-- An AIAnalysis option that contributes nothing to the score: absent,
disabled, or carrying an error message. -/
def aiInert : Option AIAnalysisResult → Prop
  | none => True
  | some ai => ai.enabled = false ∨ ai.errorMessage ≠ ""

lemma aiScore_of_inert {o : Option AIAnalysisResult} (h : aiInert o) :
    aiScore o = 0 := by
  cases o with
  | none => rfl
  | some ai =>
    simp only [aiInert] at h
    simp only [aiScore, ite_eq_right_iff]
    rintro ⟨he, hm⟩
    rcases h with h | h
    · rw [he] at h; cases h
    · exact absurd hm h

/-- C5 (amended): the value score ignores the AIAnalysis field only when
that field is inert — absent, disabled, or carrying a non-empty
ErrorMessage.  Two AnalysisResults that differ only in inert AIAnalysis
fields receive the same score; an enabled, error-free AIAnalysis changes
the score (see the counterexample). -/
theorem c5_amended_ai_independence (now : Int) (panicKeywords : List String)
    (f : CoredumpFile) (r : AnalysisResults)
    (o₁ o₂ : Option AIAnalysisResult) (h₁ : aiInert o₁) (h₂ : aiInert o₂) :
    calculateValueScore now panicKeywords f { r with aiAnalysis := o₁ }
      = calculateValueScore now panicKeywords f { r with aiAnalysis := o₂ } := by
  rw [calculateValueScore_eq_formula, calculateValueScore_eq_formula]
  simp only [valueScoreFormula, crashScore, stackScore, threadScore,
    aiScore_of_inert h₁, aiScore_of_inert h₂]

/-- Witness for C5 (amended) at a concrete input: an absent AIAnalysis and
a disabled one produce the same score. -/
theorem c5_witness :
    calculateValueScore 100000 [] fEmpty { rEmpty with aiAnalysis := none }
      = calculateValueScore 100000 [] fEmpty
          { rEmpty with aiAnalysis := some aiOff } :=
  c5_amended_ai_independence 100000 [] fEmpty rEmpty none (some aiOff)
    trivial (Or.inl rfl)

/-! ## Claim C10 -/

lemma crashScore_nonneg (ks : List String) (r : AnalysisResults) :
    0 ≤ crashScore ks r := by
  unfold crashScore; split_ifs <;> norm_num

lemma stackScore_nonneg (r : AnalysisResults) : 0 ≤ stackScore r := by
  unfold stackScore; split_ifs <;> norm_num

lemma threadScore_nonneg (r : AnalysisResults) : 0 ≤ threadScore r := by
  unfold threadScore; split_ifs <;> norm_num

lemma podScore_nonneg (f : CoredumpFile) : 0 ≤ podScore f := by
  unfold podScore; split_ifs <;> norm_num

lemma signalScore_nonneg (f : CoredumpFile) : 0 ≤ signalScore f := by
  unfold signalScore; split_ifs <;> norm_num

lemma sizeScore_nonneg (f : CoredumpFile) : 0 ≤ sizeScore f := by
  unfold sizeScore; split_ifs <;> norm_num

lemma freshScore_nonneg (now : Int) (f : CoredumpFile) : 0 ≤ freshScore now f := by
  unfold freshScore; split_ifs <;> norm_num

lemma aiConfidenceScore_nonneg (ai : AIAnalysisResult) :
    0 ≤ aiConfidenceScore ai := by
  unfold aiConfidenceScore; split_ifs <;> norm_num

lemma aiScore_nonneg (o : Option AIAnalysisResult) : 0 ≤ aiScore o := by
  cases o with
  | none => simp [aiScore]
  | some ai =>
    have h := aiConfidenceScore_nonneg ai
    simp only [aiScore]
    split_ifs <;> linarith

/-- C10: every value score computed by the analyzer is at least 5.0 — the
base score is 5.0, every dimension only adds a non-negative bonus, and the
clamp to 10.0 stays above 5.0. -/
theorem c10_value_score_ge_five (now : Int) (panicKeywords : List String)
    (f : CoredumpFile) (r : AnalysisResults) :
    5 ≤ calculateValueScore now panicKeywords f r := by
  rw [calculateValueScore_eq_formula]
  refine le_min (by norm_num) ?_
  have h₁ := crashScore_nonneg panicKeywords r
  have h₂ := stackScore_nonneg r
  have h₃ := threadScore_nonneg r
  have h₄ := podScore_nonneg f
  have h₅ := signalScore_nonneg f
  have h₆ := sizeScore_nonneg f
  have h₇ := freshScore_nonneg now f
  have h₈ := aiScore_nonneg r.aiAnalysis
  linarith

/-! ## Discovery panic classification (pkg/discovery/discovery.go,
isPanicRestart)

A transliteration of the Go function: lowercase the reason and message,
return `false` for liveness/readiness/startup probe reasons, otherwise
`true` on a panic token in reason or message, a fatal signal, or an exit
code outside {0, 1, 130, 143}. -/

def panicIndicators : List String :=
  ["panic", "fatal", "sigsegv", "sigabrt", "sigfpe", "assertion failed"]

def isPanicRestart (reason message : String) (exitCode signal : Int) : Bool :=
  let reasonLower := goToLower reason
  let messageLower := goToLower message
  if goContains reasonLower "liveness" || goContains reasonLower "readiness" ||
      goContains reasonLower "startup" then false
  else if panicIndicators.any fun indicator =>
      goContains reasonLower indicator || goContains messageLower indicator then
    true
  else if signal == 11 || signal == 6 || signal == 8 then true
  else if exitCode != 0 && exitCode != 1 && exitCode != 130 && exitCode != 143 then
    true
  else false

/-- The reason or the message matches a known panic token (case-insensitive
substring match, as the source and scenario S2 use for "matches"). -/
def matchesPanicToken (reason message : String) : Prop :=
  ∃ indicator ∈ panicIndicators,
    goContains (goToLower reason) indicator = true
      ∨ goContains (goToLower message) indicator = true

/-- The reason is a liveness/readiness/startup probe reason
(case-insensitive substring match, the sense in which scenario S2's reason
"Liveness probe failed" is "one of" them). -/
def isProbeReason (reason : String) : Prop :=
  goContains (goToLower reason) "liveness" = true
    ∨ goContains (goToLower reason) "readiness" = true
    ∨ goContains (goToLower reason) "startup" = true

/-- C2: a restart is classified as a panic iff (the reason or message
matches a known panic token, OR the signal is in {11, 6, 8}, OR the exit
code is not in {0, 1, 130, 143}), AND the reason is not a
liveness/readiness/startup probe reason. -/
theorem c2_panic_classification (reason message : String)
    (exitCode signal : Int) :
    isPanicRestart reason message exitCode signal = true ↔
      ((matchesPanicToken reason message
          ∨ signal = 11 ∨ signal = 6 ∨ signal = 8
          ∨ exitCode ∉ ([0, 1, 130, 143] : List Int))
        ∧ ¬ isProbeReason reason) := by
  have hbool : isPanicRestart reason message exitCode signal =
      (((panicIndicators.any fun indicator =>
            goContains (goToLower reason) indicator
              || goContains (goToLower message) indicator)
          || (signal == 11 || signal == 6 || signal == 8)
          || (exitCode != 0 && exitCode != 1 && exitCode != 130 && exitCode != 143))
        && !(goContains (goToLower reason) "liveness"
          || goContains (goToLower reason) "readiness"
          || goContains (goToLower reason) "startup")) := by
    simp only [isPanicRestart]
    cases hp : (goContains (goToLower reason) "liveness"
        || goContains (goToLower reason) "readiness"
        || goContains (goToLower reason) "startup") <;>
      cases ht : (panicIndicators.any fun indicator =>
          goContains (goToLower reason) indicator
            || goContains (goToLower message) indicator) <;>
      cases hs : (signal == 11 || signal == 6 || signal == 8) <;>
      cases he : (exitCode != 0 && exitCode != 1 && exitCode != 130
          && exitCode != 143) <;>
      simp [hp, ht, hs, he]
  rw [hbool]
  simp only [matchesPanicToken, isProbeReason, List.mem_cons,
    List.not_mem_nil, or_false, Bool.and_eq_true, Bool.or_eq_true,
    Bool.not_eq_true', Bool.or_eq_false_iff, Bool.eq_false_iff,
    bne_iff_ne, beq_iff_eq, List.any_eq_true, ne_eq]
  generalize (∃ x ∈ panicIndicators,
    goContains (goToLower reason) x = true
      ∨ goContains (goToLower message) x = true) = A
  tauto

/-! ## Controller arbitration (pkg/controller/handlers.go)

`GlobalState` embeds the controller's in-memory state (the Go map
`PendingCleanups` becomes an association list; the statistics fields not
read by the embedded handlers are omitted).  Reason strings are kept as the
code's literal message text without the `fmt.Sprintf` number formatting,
which no claim depends on. -/

/-- Go `config.AIAnalysisConfig` — the fields the controller reads. -/
structure AIAnalysisConfig where
  enabled : Bool
  maxCostPerMonth : ℚ
  maxAnalysisPerHour : Int
  deriving DecidableEq, Repr

/-- Go `config.CleanerConfig` — the fields the controller reads. -/
structure CleanerConfig where
  enabled : Bool
  maxRestartCount : Int
  restartTimeWindow : Int
  cleanupDelay : Int
  uninstallTimeout : Int
  deriving DecidableEq, Repr

/-- Go `controller.CleanupTask`. -/
structure CleanupTask where
  instanceName : String
  ns : String
  restartCount : Int
  scheduledAt : Int
  assignedAgent : String
  status : String
  deriving DecidableEq, Repr

/-- Go `controller.GlobalState` (handler-relevant fields). -/
structure GlobalState where
  monthlyAICost : ℚ
  aiAnalysisCount : Int
  lastAIAnalysisReset : Int
  pendingCleanups : List (String × CleanupTask)
  lastUpdated : Int
  deriving DecidableEq, Repr

/-- Go `controller.AIAnalysisRequest`. -/
structure AIAnalysisRequest where
  nodeName : String
  coredumpPath : String
  valueScore : ℚ
  estimatedCost : ℚ
  priority : String
  deriving DecidableEq, Repr

/-- Go `controller.AIAnalysisResponse`. -/
structure AIAnalysisResponse where
  allowed : Bool
  reason : String
  remainingCost : ℚ
  deriving DecidableEq, Repr

/-- Go `controller.CleanupRequest`. -/
structure CleanupRequest where
  nodeName : String
  instanceName : String
  ns : String
  restartCount : Int
  deploymentType : String
  deriving DecidableEq, Repr

/-- Go `controller.CleanupResponse`. -/
structure CleanupResponse where
  allowed : Bool
  reason : String
  taskID : String
  assignedTo : String
  deriving DecidableEq, Repr

/-- Go map read `m.globalState.PendingCleanups[key]`. -/
def lookupTask : List (String × CleanupTask) → String → Option CleanupTask
  | [], _ => none
  | (k, t) :: rest, key => if k = key then some t else lookupTask rest key

/-- Go map write `m.globalState.PendingCleanups[key] = task`. -/
def insertTask (m : List (String × CleanupTask)) (key : String)
    (t : CleanupTask) : List (String × CleanupTask) :=
  (key, t) :: m.filter fun kv => kv.1 ≠ key

/-- `processAIAnalysisRequest` (handlers.go): deny when AI analysis is
disabled, the monthly budget would be exceeded, or the hourly count is
full; otherwise add the estimated cost, bump the hourly counter and stamp
`lastUpdated`. -/
def processAIAnalysisRequest (cfg : AIAnalysisConfig) (now : Int)
    (st : GlobalState) (req : AIAnalysisRequest) :
    AIAnalysisResponse × GlobalState :=
  if cfg.enabled = false then
    ({ allowed := false, reason := "AI analysis is disabled",
       remainingCost := 0 }, st)
  else if st.monthlyAICost + req.estimatedCost > cfg.maxCostPerMonth then
    ({ allowed := false, reason := "Monthly cost limit would be exceeded",
       remainingCost := cfg.maxCostPerMonth - st.monthlyAICost }, st)
  else if st.aiAnalysisCount ≥ cfg.maxAnalysisPerHour then
    ({ allowed := false, reason := "Hourly analysis limit exceeded",
       remainingCost := 0 }, st)
  else
    let st' : GlobalState :=
      { st with monthlyAICost := st.monthlyAICost + req.estimatedCost,
                aiAnalysisCount := st.aiAnalysisCount + 1,
                lastUpdated := now }
    ({ allowed := true, reason := "",
       remainingCost := cfg.maxCostPerMonth - st'.monthlyAICost }, st')

/-- `processCleanupRequest` (handlers.go): deny when cleanup is disabled,
the restart count is below the global threshold, or a pending/in-progress
task already exists for `namespace/instanceName` (returning its assignee);
otherwise register a fresh pending task assigned to the caller. -/
def processCleanupRequest (cfg : CleanerConfig) (now : Int)
    (st : GlobalState) (req : CleanupRequest) :
    CleanupResponse × GlobalState :=
  let instanceKey := req.ns ++ "/" ++ req.instanceName
  if cfg.enabled = false then
    ({ allowed := false, reason := "Instance cleanup is disabled",
       taskID := "", assignedTo := "" }, st)
  else if req.restartCount < cfg.maxRestartCount then
    ({ allowed := false, reason := "Restart count below threshold",
       taskID := "", assignedTo := "" }, st)
  else
    let create : CleanupResponse × GlobalState :=
      let task : CleanupTask :=
        { instanceName := req.instanceName, ns := req.ns,
          restartCount := req.restartCount, scheduledAt := now,
          assignedAgent := req.nodeName, status := "pending" }
      ({ allowed := true, reason := "", taskID := instanceKey,
         assignedTo := req.nodeName },
       { st with pendingCleanups := insertTask st.pendingCleanups instanceKey task })
    match lookupTask st.pendingCleanups instanceKey with
    | some existingTask =>
      if existingTask.status = "pending" ∨ existingTask.status = "in_progress" then
        ({ allowed := false, reason := "Cleanup already scheduled or in progress",
           taskID := instanceKey, assignedTo := existingTask.assignedAgent }, st)
      else create
    | none => create

/-! ## Claim C3 -/

/-- C3: on every AI-analysis decision, an allowed response leaves the
monthly cost within `maxCostPerMonth` and the hourly count within
`maxAnalysisPerHour`, having added the estimated cost and incremented the
hourly counter; a denied response changes neither counter. -/
theorem c3_ai_budget_invariant (cfg : AIAnalysisConfig) (now : Int)
    (st : GlobalState) (req : AIAnalysisRequest) :
    ((processAIAnalysisRequest cfg now st req).1.allowed = true →
        (processAIAnalysisRequest cfg now st req).2.monthlyAICost
            ≤ cfg.maxCostPerMonth
          ∧ (processAIAnalysisRequest cfg now st req).2.aiAnalysisCount
            ≤ cfg.maxAnalysisPerHour
          ∧ (processAIAnalysisRequest cfg now st req).2.monthlyAICost
            = st.monthlyAICost + req.estimatedCost
          ∧ (processAIAnalysisRequest cfg now st req).2.aiAnalysisCount
            = st.aiAnalysisCount + 1)
      ∧ ((processAIAnalysisRequest cfg now st req).1.allowed = false →
        (processAIAnalysisRequest cfg now st req).2.monthlyAICost
            = st.monthlyAICost
          ∧ (processAIAnalysisRequest cfg now st req).2.aiAnalysisCount
            = st.aiAnalysisCount) := by
  unfold processAIAnalysisRequest
  split_ifs with h1 h2 h3
  · exact ⟨fun h => False.elim h, fun _ => ⟨rfl, rfl⟩⟩
  · exact ⟨fun h => False.elim h, fun _ => ⟨rfl, rfl⟩⟩
  · exact ⟨fun h => False.elim h, fun _ => ⟨rfl, rfl⟩⟩
  · refine ⟨fun _ => ⟨?_, ?_, rfl, rfl⟩, fun h => False.elim h⟩
    · exact le_of_not_lt h2
    · exact Int.add_one_le_iff.mpr (lt_of_not_le h3)

/-- Concrete controller fixtures for the C3 and C6 witnesses and the C6
counterexample. -/
def aiCfg₀ : AIAnalysisConfig :=
  { enabled := true, maxCostPerMonth := 100, maxAnalysisPerHour := 10 }

def aiSt₀ : GlobalState :=
  { monthlyAICost := 50, aiAnalysisCount := 3, lastAIAnalysisReset := 0,
    pendingCleanups := [], lastUpdated := 0 }

def aiReq₀ : AIAnalysisRequest :=
  { nodeName := "node-a", coredumpPath := "/var/dumps/core.milvus",
    valueScore := 8, estimatedCost := 0.2, priority := "high" }

lemma aiReq₀_allowed :
    (processAIAnalysisRequest aiCfg₀ 7 aiSt₀ aiReq₀).1.allowed = true := by
  norm_num [processAIAnalysisRequest, aiCfg₀, aiSt₀, aiReq₀]

/-- Witness for C3 at a concrete allowed decision: cost 50 + 0.2 stays
within the 100 budget and the hourly count becomes 4 ≤ 10. -/
theorem c3_witness :
    (processAIAnalysisRequest aiCfg₀ 7 aiSt₀ aiReq₀).2.monthlyAICost
        ≤ aiCfg₀.maxCostPerMonth
      ∧ (processAIAnalysisRequest aiCfg₀ 7 aiSt₀ aiReq₀).2.aiAnalysisCount
        ≤ aiCfg₀.maxAnalysisPerHour
      ∧ (processAIAnalysisRequest aiCfg₀ 7 aiSt₀ aiReq₀).2.monthlyAICost
        = aiSt₀.monthlyAICost + aiReq₀.estimatedCost
      ∧ (processAIAnalysisRequest aiCfg₀ 7 aiSt₀ aiReq₀).2.aiAnalysisCount
        = aiSt₀.aiAnalysisCount + 1 :=
  (c3_ai_budget_invariant aiCfg₀ 7 aiSt₀ aiReq₀).1 aiReq₀_allowed

/-! ## Claim C6 -/

/-- Cleaner configuration with cleanup enabled and a threshold of 3. -/
def clCfg₀ : CleanerConfig :=
  { enabled := true, maxRestartCount := 3, restartTimeWindow := 600,
    cleanupDelay := 30, uninstallTimeout := 300 }

/-- A pending cleanup task for ns1/rel1 assigned to node-a. -/
def task₀ : CleanupTask :=
  { instanceName := "rel1", ns := "ns1", restartCount := 5, scheduledAt := 0,
    assignedAgent := "node-a", status := "pending" }

/-- Controller state already holding the pending task for ns1/rel1. -/
def stPend : GlobalState :=
  { monthlyAICost := 0, aiAnalysisCount := 0, lastAIAnalysisReset := 0,
    pendingCleanups := [("ns1/rel1", task₀)], lastUpdated := 0 }

/-- A further cleanup request for ns1/rel1 whose restart count (2) is below
the global threshold (3). -/
def reqLow : CleanupRequest :=
  { nodeName := "node-b", instanceName := "rel1", ns := "ns1",
    restartCount := 2, deploymentType := "helm" }

/-- A further cleanup request for ns1/rel1 passing the global checks. -/
def reqHigh : CleanupRequest :=
  { nodeName := "node-b", instanceName := "rel1", ns := "ns1",
    restartCount := 5, deploymentType := "helm" }

/-- C6 (counterexample): with a pending task for ns1/rel1 assigned to
node-a, a further CleanupRequest for that key whose restart count is below
the global threshold is denied by the threshold check, so its `AssignedTo`
is empty rather than the existing task's agent — the claim's "any further
CleanupRequest ... with AssignedTo equal to the existing task's assigned
agent" fails at this input. -/
theorem c6_counterexample_assignee :
    lookupTask stPend.pendingCleanups "ns1/rel1" = some task₀
      ∧ (processCleanupRequest clCfg₀ 9 stPend reqLow).1.allowed = false
      ∧ (processCleanupRequest clCfg₀ 9 stPend reqLow).1.assignedTo
        ≠ task₀.assignedAgent := by
  refine ⟨by decide, by decide, by decide⟩

/-- C6 (amended): when a pending or in-progress CleanupTask exists for
namespace/instanceName, any further CleanupRequest for that key is denied
and the pending-cleanup registry is left unchanged; the denial carries the
existing task's assignee whenever the request passes the global checks
(cleanup enabled and restartCount ≥ maxRestartCount), while a request
stopped by those earlier checks is denied with an empty AssignedTo. -/
theorem c6_amended_cleanup_dedup (cfg : CleanerConfig) (now : Int)
    (st : GlobalState) (req : CleanupRequest) (t : CleanupTask)
    (hl : lookupTask st.pendingCleanups (req.ns ++ "/" ++ req.instanceName)
      = some t)
    (hs : t.status = "pending" ∨ t.status = "in_progress") :
    (processCleanupRequest cfg now st req).1.allowed = false
      ∧ (processCleanupRequest cfg now st req).2 = st
      ∧ (cfg.enabled = true → cfg.maxRestartCount ≤ req.restartCount →
          (processCleanupRequest cfg now st req).1.assignedTo
            = t.assignedAgent) := by
  unfold processCleanupRequest
  split_ifs with h1 h2
  · exact ⟨rfl, rfl, fun he _ => absurd h1 (by rw [he]; exact Bool.noConfusion)⟩
  · exact ⟨rfl, rfl, fun _ hge => absurd h2 (not_lt.mpr hge)⟩
  · simp only [hl]
    rw [if_pos hs]
    exact ⟨rfl, rfl, fun _ _ => rfl⟩

/-- Witness for C6 (amended): the concrete second request that passes the
global checks is denied with node-a as assignee and the registry intact. -/
theorem c6_witness :
    (processCleanupRequest clCfg₀ 9 stPend reqHigh).1.allowed = false
      ∧ (processCleanupRequest clCfg₀ 9 stPend reqHigh).2 = stPend
      ∧ (processCleanupRequest clCfg₀ 9 stPend reqHigh).1.assignedTo
        = task₀.assignedAgent := by
  have h := c6_amended_cleanup_dedup clCfg₀ 9 stPend reqHigh task₀
    (by decide) (Or.inl rfl)
  exact ⟨h.1, h.2.1, h.2.2 rfl (by decide)⟩

/-! ## Collector filename parsing (pkg/collector/collector.go)

The two accepted regular expressions

  coredumpPattern = ^core\\.([^.]+)\\.(\\d+)\\.(\\d+)\\.(\\d+)$
  systemdPattern  = ^core\\.([^.]+)\\.(\\d+)\\.([0-9a-f]+)\\.(\\d+)\\.(\\d+)$

are embedded by splitting the filename at every dot: since no group may
contain a dot, a full match is exactly a split into 5 (resp. 6) parts with
the right shapes.  `strconv.Atoi` on an all-digit group always succeeds and
is embedded by `digitsToNat`; `strconv.ParseInt(_, 16, 32)` by `hexToNat`
(the bit-size-32 overflow failure, which would leave the field 0, is not
modelled — no claim exercises it). -/

def splitOnDotAux : List Char → List Char → List (List Char)
  | [], acc => [acc.reverse]
  | c :: rest, acc =>
    if c = '.' then acc.reverse :: splitOnDotAux rest []
    else splitOnDotAux rest (c :: acc)

def splitOnDot (cs : List Char) : List (List Char) :=
  splitOnDotAux cs []

/-- The `\\d+` shape: a non-empty run of ASCII digits. -/
def isDigits (cs : List Char) : Bool :=
  !cs.isEmpty && cs.all fun c => c.isDigit

/-- The `[0-9a-f]+` shape. -/
def isHexLower (cs : List Char) : Bool :=
  !cs.isEmpty && cs.all fun c => c.isDigit || ('a' ≤ c && c ≤ 'f')

def digitsToNat (cs : List Char) : Nat :=
  cs.foldl (fun n c => 10 * n + (c.toNat - 48)) 0

def hexDigitVal (c : Char) : Nat :=
  if c.isDigit then c.toNat - 48 else c.toNat - 87

def hexToNat (cs : List Char) : Nat :=
  cs.foldl (fun n c => 16 * n + hexDigitVal c) 0

/-- `coredumpPattern.FindStringSubmatch`: the four capture groups, or
`none` when the filename does not match. -/
def coredumpPatternMatch (filename : String) : Option (String × String × String × String) :=
  match splitOnDot filename.data with
  | [w, exe, d1, d2, d3] =>
    if w = "core".data && !exe.isEmpty && isDigits d1 && isDigits d2 && isDigits d3 then
      some (⟨exe⟩, ⟨d1⟩, ⟨d2⟩, ⟨d3⟩)
    else none
  | _ => none

/-- `systemdPattern.FindStringSubmatch`: the five capture groups. -/
def systemdPatternMatch (filename : String) :
    Option (String × String × String × String × String) :=
  match splitOnDot filename.data with
  | [w, exe, d1, hx, d2, d3] =>
    if w = "core".data && !exe.isEmpty && isDigits d1 && isHexLower hx
        && isDigits d2 && isDigits d3 then
      some (⟨exe⟩, ⟨d1⟩, ⟨hx⟩, ⟨d2⟩, ⟨d3⟩)
    else none
  | _ => none

/-- `parseCoredumpFile` (collector.go): build the base record from file
metadata, then fill the parsed fields from the capture groups.  The Go code
assigns `PID := Atoi(matches[2])`, `UID := Atoi(matches[3])` and
`Signal := Atoi(matches[4])` for the standard pattern, and
`PID := Atoi(matches[2])`, `UID := ParseInt(matches[4], 16, 32)`,
`Signal := Atoi(matches[5])` for the systemd pattern.  The final
`enrichWithPodInfo` call only fills the pod-association fields and is
omitted. -/
def parseCoredumpFile (path filename : String) (size modTime : Int) :
    CoredumpFile :=
  let base : CoredumpFile :=
    { path := path, fileName := filename, size := size, modTime := modTime,
      pid := 0, uid := 0, gid := 0, signal := 0, timestamp := modTime,
      executable := "", podName := "", podNamespace := "", containerName := "",
      instanceName := "", isAnalyzed := false, valueScore := 0,
      status := .discovered, errorMessage := "" }
  match coredumpPatternMatch filename with
  | some (exe, m2, m3, m4) =>
    { base with executable := exe,
                pid := (digitsToNat m2.data : Int),
                uid := (digitsToNat m3.data : Int),
                signal := (digitsToNat m4.data : Int) }
  | none =>
    match systemdPatternMatch filename with
    | some (exe, m2, _m3, m4, m5) =>
      { base with executable := exe,
                  pid := (digitsToNat m2.data : Int),
                  uid := (hexToNat m4.data : Int),
                  signal := (digitsToNat m5.data : Int) }
    | none => base

/-! ## Claim C7 -/

/-- C7 (code evaluated at the failing input): parsing scenario S1's
filename `core.milvus.1000.1700000000.12345` — whose specified shape is
`core.<executable>.<uid>.<wallTime>.<pid>` — yields PID = 1000 (the uid
field), UID = 1700000000 (the wall-time field) and Signal = 12345 (the pid
field), instead of uid = 1000 and pid = 12345 as the claim states.  This
contradicts the repository's own test helper, which extracts the PID from
the last dot-separated field. -/
theorem c7_field_mapping_bug :
    (parseCoredumpFile "/var/dumps/core.milvus.1000.1700000000.12345"
        "core.milvus.1000.1700000000.12345" 157286400 1700000000).executable
        = "milvus"
      ∧ (parseCoredumpFile "/var/dumps/core.milvus.1000.1700000000.12345"
          "core.milvus.1000.1700000000.12345" 157286400 1700000000).pid = 1000
      ∧ (parseCoredumpFile "/var/dumps/core.milvus.1000.1700000000.12345"
          "core.milvus.1000.1700000000.12345" 157286400 1700000000).uid
        = 1700000000
      ∧ (parseCoredumpFile "/var/dumps/core.milvus.1000.1700000000.12345"
          "core.milvus.1000.1700000000.12345" 157286400 1700000000).signal
        = 12345 := by
  refine ⟨by decide, by decide, by decide, by decide⟩

/-! ## Storage retention (pkg/storage, `performCleanup`, `parseSize`,
`LocalBackend.List`)

`performCleanup` lists the stored files, marks for deletion every file
older than `retentionDays`, and — when the listed total exceeds the parsed
`maxStorageSize` — walks the files sorted ascending by value score,
marking further files until the running total is within the budget, then
deletes every marked file by path.  Go's `sort.Slice` is an unstable sort
with the strict comparison `ValueScore <`; the embedding fixes a
deterministic insertion sort ordered by `ValueScore ≤`, one of the
outcomes `sort.Slice` permits (on distinct scores the sorted order is
unique).  Times are `Int` seconds, so `RetentionDays * 24 * time.Hour`
becomes `retentionDays * 86400`. -/

/-- Go `storage.StoredFile`. -/
structure StoredFile where
  path : String
  size : Int
  storedAt : Int
  valueScore : ℚ
  instanceName : String
  deriving DecidableEq, Repr

def isGoSpace (c : Char) : Bool :=
  c = ' ' || c = '\t' || c = '\n' || c = '\r'

/-- Go `strings.TrimSpace` (ASCII whitespace). -/
def trimSpace (s : String) : String :=
  ⟨((s.data.dropWhile isGoSpace).reverse.dropWhile isGoSpace).reverse⟩

def listEndsWith (suffix hay : List Char) : Bool :=
  listStartsWith suffix.reverse hay.reverse

/-- Go `strings.HasSuffix`. -/
def goHasSuffix (s suffix : String) : Bool :=
  listEndsWith suffix.data s.data

/-- Go `strings.TrimSuffix` (drop the suffix, which is known to match). -/
def goTrimSuffix (s suffix : String) : String :=
  if goHasSuffix s suffix then ⟨s.data.take (s.data.length - suffix.data.length)⟩
  else s

/-- Go `fmt.Sscanf(s, "%d", &n)`: an optional sign followed by at least
one digit; trailing characters are ignored. -/
def sscanfInt (cs : List Char) : Option Int :=
  match cs with
  | '-' :: rest =>
    let digits := rest.takeWhile Char.isDigit
    if digits.isEmpty then none else some (-(digitsToNat digits : Int))
  | _ =>
    let digits := cs.takeWhile Char.isDigit
    if digits.isEmpty then none else some (digitsToNat digits : Int)

/-- `parseSize` (storage): uppercase and trim, strip a `KB`/`MB`/`GB`
suffix for the multiplier, scan the leading integer; on scan failure the
default of 50 GiB stands (unmultiplied, as in the source). -/
def parseSize (sizeStr : String) : Int :=
  let t := goToUpper (trimSpace sizeStr)
  let p : Int × String :=
    if goHasSuffix t "GB" then (1024 * 1024 * 1024, goTrimSuffix t "GB")
    else if goHasSuffix t "MB" then (1024 * 1024, goTrimSuffix t "MB")
    else if goHasSuffix t "KB" then (1024, goTrimSuffix t "KB")
    else (1, t)
  match sscanfInt p.2.data with
  | some n => n * p.1
  | none => 50 * 1024 * 1024 * 1024

def insertByScore (f : StoredFile) : List StoredFile → List StoredFile
  | [] => [f]
  | g :: gs =>
    if f.valueScore ≤ g.valueScore then f :: g :: gs
    else g :: insertByScore f gs

/-- The `sort.Slice(files, ValueScore <)` step, as an insertion sort. -/
def sortByScore : List StoredFile → List StoredFile
  | [] => []
  | f :: fs => insertByScore f (sortByScore fs)

/-- The size-reduction loop: walk the sorted files, stopping as soon as
the running total is within `maxSize`, otherwise marking the file and
subtracting its size. -/
def sizePass (maxSize : Int) : List StoredFile → Int → List StoredFile
  | [], _ => []
  | f :: rest, total =>
    if total ≤ maxSize then []
    else f :: sizePass maxSize rest (total - f.size)

/-- `performCleanup` (storage): the list of files marked for deletion. -/
def performCleanup (now retentionDays : Int) (maxStorageSize : String)
    (files : List StoredFile) : List StoredFile :=
  let retentionTime := retentionDays * 86400
  let totalSize := (files.map fun f => f.size).sum
  let filesToDelete := files.filter fun f => now - f.storedAt > retentionTime
  let maxSize := parseSize maxStorageSize
  if totalSize > maxSize then
    filesToDelete ++ sizePass maxSize (sortByScore files) totalSize
  else filesToDelete

/-- The files still stored after the deletion loop removes every marked
path (`backend.Delete(file.Path)`; a duplicate mark deletes once). -/
def remainingFiles (files deleted : List StoredFile) : List StoredFile :=
  files.filter fun f => !(deleted.any fun d => d.path = f.path)

def totalStoredSize (files : List StoredFile) : Int :=
  (files.map fun f => f.size).sum

/-- Go `os.FileInfo` as seen by `filepath.Walk`: path, size, modification
time, directory flag. -/
structure FSEntry where
  path : String
  size : Int
  modTime : Int
  isDir : Bool
  deriving DecidableEq, Repr

/-- Go `filepath.Rel(basePath, path)` for the walked entries: strip the
`basePath/` front segment. -/
def relPath (basePath path : String) : String :=
  if listStartsWith (basePath ++ "/").data path.data then
    ⟨path.data.drop (basePath.data.length + 1)⟩
  else path

/-- `LocalBackend.List` (storage): walk the backing directory, skip
directories, and build a `StoredFile` from the relative path, the size and
the modification time; `ValueScore` and `InstanceName` are never set and
stay at their zero values. -/
def localBackendList (basePath : String) (entries : List FSEntry) :
    List StoredFile :=
  (entries.filter fun e => !e.isDir).map fun e =>
    { path := relPath basePath e.path, size := e.size, storedAt := e.modTime,
      valueScore := 0, instanceName := "" }

/-! ## Claim C8 -/

lemma aged_file_marked (now rd : Int) (maxStr : String)
    (files : List StoredFile) (f : StoredFile) (hf : f ∈ files)
    (hage : now - f.storedAt > rd * 86400) :
    f ∈ performCleanup now rd maxStr files := by
  simp only [performCleanup]
  have hmem : f ∈ files.filter fun g => decide (now - g.storedAt > rd * 86400) :=
    List.mem_filter.mpr ⟨hf, decide_eq_true hage⟩
  split_ifs with h
  · exact List.mem_append_left _ hmem
  · exact hmem

/-- Scenario S5's stored files: 20 GiB each, stored one day before the run
(at `now = 1000000`), with pairwise-distinct value scores of which "b"
holds the lowest. -/
def s5File (p : String) (score : ℚ) : StoredFile :=
  { path := p, size := 21474836480, storedAt := 913600, valueScore := score,
    instanceName := "" }

def s5Files : List StoredFile :=
  [s5File "a" 3, s5File "b" 1, s5File "c" 5, s5File "d" 2, s5File "e" 6,
   s5File "f" 4]

lemma parseSize_100GB : parseSize "100GB" = 107374182400 := by decide

lemma s5_deleted :
    performCleanup 1000000 30 "100GB" s5Files = [s5File "b" 1] := by
  norm_num [performCleanup, parseSize_100GB, s5Files, s5File, sortByScore,
    insertByScore, sizePass, List.filter]

lemma s5_lowest : ∀ g ∈ s5Files, (s5File "b" 1).valueScore ≤ g.valueScore := by
  intro g hg
  fin_cases hg <;> norm_num [s5File]

lemma s5_remaining :
    totalStoredSize (remainingFiles s5Files
      (performCleanup 1000000 30 "100GB" s5Files)) = 107374182400 := by
  rw [s5_deleted]
  norm_num [remainingFiles, totalStoredSize, s5Files, s5File, List.filter]
  decide

/-- Modelled from the claim's words, for comparison with the code: the
age deletions are applied first, and when the total stored size exceeds
`maxStorageSize`, the files REMAINING after the age deletions are deleted
in ascending order of value score until the total of what remains is
within the budget. -/
def claimRetention (now retentionDays : Int) (maxStorageSize : String)
    (files : List StoredFile) : List StoredFile :=
  let retentionTime := retentionDays * 86400
  let aged := files.filter fun f => now - f.storedAt > retentionTime
  let remaining := files.filter fun f => ¬ (now - f.storedAt > retentionTime)
  let maxSize := parseSize maxStorageSize
  if (files.map fun f => f.size).sum > maxSize then
    aged ++ sizePass maxSize (sortByScore remaining)
      ((remaining.map fun f => f.size).sum)
  else aged

/-- An age-expired 110 GiB file of score 5 (stored at time 0, run at
`now = 3000000` with 30-day retention). -/
def overlapA : StoredFile :=
  { path := "a", size := 118111600640, storedAt := 0, valueScore := 5,
    instanceName := "" }

/-- A fresh 10 GiB file of score 1 (stored one day before the run). -/
def overlapB : StoredFile :=
  { path := "b", size := 10737418240, storedAt := 2913600, valueScore := 1,
    instanceName := "" }

def overlapFiles : List StoredFile := [overlapA, overlapB]

lemma parseSize_15GB : parseSize "15GB" = 16106127360 := by decide

lemma overlap_code_eval :
    performCleanup 3000000 30 "15GB" overlapFiles
      = [overlapA, overlapB, overlapA] := by
  norm_num [performCleanup, parseSize_15GB, overlapFiles, overlapA, overlapB,
    sortByScore, insertByScore, sizePass, List.filter]

lemma overlap_claim_eval :
    claimRetention 3000000 30 "15GB" overlapFiles = [overlapA] := by
  norm_num [claimRetention, parseSize_15GB, overlapFiles, overlapA, overlapB,
    sortByScore, insertByScore, sizePass, List.filter]

/-- C8 (counterexample): with one age-expired 110 GiB file and one fresh
10 GiB low-score file under a 15 GiB budget, the code's size pass sorts
and counts ALL files, so it deletes the fresh file too, while the claimed
process — age deletions, then remaining files ascending by score until the
remaining total is within the budget — keeps it: the fresh file's removal
is not forced by either clause of the claim. -/
theorem c8_counterexample_size_pass :
    (3000000 : Int) - overlapB.storedAt ≤ 30 * 86400
      ∧ overlapB ∈ performCleanup 3000000 30 "15GB" overlapFiles
      ∧ overlapB ∉ claimRetention 3000000 30 "15GB" overlapFiles := by
  refine ⟨by decide, ?_, ?_⟩
  · rw [overlap_code_eval]
    exact List.mem_cons_of_mem _ (List.mem_cons_self _ _)
  · rw [overlap_claim_eval]
    intro hmem
    have h := List.mem_singleton.mp hmem
    exact absurd (congrArg StoredFile.path h) (by decide)

/-! General structure of a retention run.  `sortByScore` is a permutation
of the input, sorted ascending by value score; the size pass takes the
shortest prefix of it whose removal brings the running total within the
budget (or everything). -/

lemma totalStoredSize_cons (f : StoredFile) (l : List StoredFile) :
    totalStoredSize (f :: l) = f.size + totalStoredSize l := by
  simp [totalStoredSize]

lemma insertByScore_perm (f : StoredFile) (l : List StoredFile) :
    List.Perm (insertByScore f l) (f :: l) := by
  induction l with
  | nil => exact List.Perm.refl _
  | cons g gs ih =>
    simp only [insertByScore]
    split_ifs with h
    · exact List.Perm.refl _
    · exact (List.Perm.cons g ih).trans (List.Perm.swap f g gs)

lemma sortByScore_perm (l : List StoredFile) :
    List.Perm (sortByScore l) l := by
  induction l with
  | nil => exact List.Perm.refl _
  | cons f fs ih =>
    exact (insertByScore_perm f (sortByScore fs)).trans (List.Perm.cons f ih)

lemma mem_insertByScore {x f : StoredFile} {l : List StoredFile} :
    x ∈ insertByScore f l ↔ x = f ∨ x ∈ l := by
  rw [(insertByScore_perm f l).mem_iff]
  simp

lemma insertByScore_pairwise (f : StoredFile) {l : List StoredFile}
    (h : l.Pairwise fun a b => a.valueScore ≤ b.valueScore) :
    (insertByScore f l).Pairwise fun a b => a.valueScore ≤ b.valueScore := by
  induction l with
  | nil => simp [insertByScore]
  | cons g gs ih =>
    obtain ⟨hg, hgs⟩ := List.pairwise_cons.mp h
    simp only [insertByScore]
    split_ifs with hle
    · refine List.Pairwise.cons ?_ h
      intro b hb
      rcases List.mem_cons.mp hb with rfl | hb
      · exact hle
      · exact le_trans hle (hg b hb)
    · refine List.Pairwise.cons ?_ (ih hgs)
      intro b hb
      rcases mem_insertByScore.mp hb with rfl | hb
      · exact le_of_not_le hle
      · exact hg b hb

lemma sortByScore_pairwise (l : List StoredFile) :
    (sortByScore l).Pairwise fun a b => a.valueScore ≤ b.valueScore := by
  induction l with
  | nil => exact List.Pairwise.nil
  | cons f fs ih => exact insertByScore_pairwise f ih

lemma sizePass_spec (maxSize : Int) (l : List StoredFile) (t : Int) :
    ∃ k, k ≤ l.length ∧ sizePass maxSize l t = l.take k
      ∧ (∀ j, j < k → t - totalStoredSize (l.take j) > maxSize)
      ∧ (k < l.length → t - totalStoredSize (l.take k) ≤ maxSize) := by
  induction l generalizing t with
  | nil =>
    refine ⟨0, Nat.le_refl 0, rfl, ?_, ?_⟩
    · intro j hj
      exact absurd hj (Nat.not_lt_zero j)
    · simp
  | cons x rest ih =>
    by_cases hstop : t ≤ maxSize
    · refine ⟨0, Nat.zero_le _, ?_, ?_, ?_⟩
      · simp [sizePass, if_pos hstop]
      · intro j hj
        exact absurd hj (Nat.not_lt_zero j)
      · intro _
        simpa [totalStoredSize] using hstop
    · obtain ⟨k, hk, heq, hgt, hle⟩ := ih (t - x.size)
      refine ⟨k + 1, Nat.succ_le_succ hk, ?_, ?_, ?_⟩
      · simp [sizePass, if_neg hstop, heq, List.take_succ_cons]
      · intro j hj
        cases j with
        | zero => simpa [totalStoredSize] using lt_of_not_le hstop
        | succ i =>
          have hi := hgt i (Nat.lt_of_succ_lt_succ hj)
          have hexp : totalStoredSize ((x :: rest).take (i + 1))
              = x.size + totalStoredSize (rest.take i) := by
            simp [List.take_succ_cons, totalStoredSize_cons]
          rw [hexp]
          omega
      · intro hlt
        have hlt' : k < rest.length := by
          simpa using Nat.lt_of_succ_lt_succ hlt
        have hstop' := hle hlt'
        have hexp : totalStoredSize ((x :: rest).take (k + 1))
            = x.size + totalStoredSize (rest.take k) := by
          simp [List.take_succ_cons, totalStoredSize_cons]
        rw [hexp]
        omega

lemma totalStoredSize_filter_split (p : StoredFile → Bool)
    (l : List StoredFile) :
    totalStoredSize (l.filter p)
      + totalStoredSize (l.filter fun f => !(p f)) = totalStoredSize l := by
  induction l with
  | nil => rfl
  | cons x xs ih =>
    cases hpx : p x <;>
      simp [List.filter_cons, hpx, totalStoredSize_cons] <;>
      omega

lemma totalStoredSize_sublist_le {l₁ l₂ : List StoredFile}
    (h : List.Sublist l₁ l₂) :
    (∀ f ∈ l₂, 0 ≤ f.size) → totalStoredSize l₁ ≤ totalStoredSize l₂ := by
  induction h with
  | slnil => exact fun _ => le_refl _
  | cons x h ih =>
    intro hpos
    have hx := hpos x (List.mem_cons_self _ _)
    have h₂ := ih fun f hf => hpos f (List.mem_cons_of_mem _ hf)
    rw [totalStoredSize_cons]
    omega
  | cons₂ x h ih =>
    intro hpos
    have h₂ := ih fun f hf => hpos f (List.mem_cons_of_mem _ hf)
    rw [totalStoredSize_cons, totalStoredSize_cons]
    omega

lemma totalStoredSize_subperm_le {l₁ l₂ : List StoredFile}
    (h : List.Subperm l₁ l₂) (hpos : ∀ f ∈ l₂, 0 ≤ f.size) :
    totalStoredSize l₁ ≤ totalStoredSize l₂ := by
  obtain ⟨l, hperm, hsub⟩ := h
  have heq : totalStoredSize l = totalStoredSize l₁ := by
    unfold totalStoredSize
    exact (hperm.map fun f => f.size).sum_eq
  exact heq ▸ totalStoredSize_sublist_le hsub hpos

/-- A retention run's delete list is the age-expired files followed by a
prefix of the score-sorted arrangement of ALL files; the prefix is minimal
for bringing the running total within the budget. -/
lemma retention_shape (now rd : Int) (maxStr : String)
    (files : List StoredFile) :
    ∃ k, performCleanup now rd maxStr files
        = (files.filter fun f => now - f.storedAt > rd * 86400)
          ++ (sortByScore files).take k
      ∧ (∀ j, j < k → totalStoredSize files
          - totalStoredSize ((sortByScore files).take j) > parseSize maxStr)
      ∧ (k < (sortByScore files).length → totalStoredSize files
          - totalStoredSize ((sortByScore files).take k) ≤ parseSize maxStr) := by
  by_cases htrig : (files.map fun f => f.size).sum > parseSize maxStr
  · obtain ⟨k, hk, heq, hgt, hle⟩ := sizePass_spec (parseSize maxStr)
      (sortByScore files) ((files.map fun f => f.size).sum)
    refine ⟨k, ?_, ?_, ?_⟩
    · simp only [performCleanup]
      rw [if_pos htrig, heq]
    · intro j hj
      exact hgt j hj
    · intro h
      exact hle h
  · refine ⟨0, ?_, ?_, ?_⟩
    · simp only [performCleanup]
      rw [if_neg htrig]
      simp
    · intro j hj
      exact absurd hj (Nat.not_lt_zero j)
    · intro _
      simpa [totalStoredSize] using not_lt.mp htrig

/-- After a retention run the files still stored total within the budget,
unless the size pass exhausted every file.  Paths are pairwise distinct
(the list comes from a filesystem walk) and sizes are non-negative. -/
lemma retention_budget (now rd : Int) (maxStr : String)
    (files : List StoredFile)
    (hnodup : (files.map StoredFile.path).Nodup)
    (hpos : ∀ f ∈ files, 0 ≤ f.size) :
    totalStoredSize (remainingFiles files (performCleanup now rd maxStr files))
        ≤ parseSize maxStr
      ∨ remainingFiles files (performCleanup now rd maxStr files) = [] := by
  by_cases htrig : (files.map fun f => f.size).sum > parseSize maxStr
  case neg =>
    left
    have hsub : List.Sublist
        (remainingFiles files (performCleanup now rd maxStr files)) files :=
      List.filter_sublist _
    calc totalStoredSize (remainingFiles files (performCleanup now rd maxStr files))
        ≤ totalStoredSize files := totalStoredSize_sublist_le hsub hpos
      _ ≤ parseSize maxStr := not_lt.mp htrig
  case pos =>
    obtain ⟨k, hk, heq, hgt, hle⟩ := sizePass_spec (parseSize maxStr)
      (sortByScore files) ((files.map fun f => f.size).sum)
    have hDeq : performCleanup now rd maxStr files
        = (files.filter fun f => decide (now - f.storedAt > rd * 86400))
          ++ (sortByScore files).take k := by
      simp only [performCleanup]
      rw [if_pos htrig, heq]
    have hperm := sortByScore_perm files
    by_cases hkend : k < (sortByScore files).length
    case pos =>
      left
      have hstop : totalStoredSize files
          - totalStoredSize ((sortByScore files).take k) ≤ parseSize maxStr :=
        hle hkend
      have hsplit := totalStoredSize_filter_split
        (fun f => (performCleanup now rd maxStr files).any fun d => d.path = f.path)
        files
      have htake_sub : ∀ x ∈ (sortByScore files).take k,
          x ∈ files.filter fun f =>
            (performCleanup now rd maxStr files).any fun d => d.path = f.path := by
        intro x hx
        have hxsrt : x ∈ sortByScore files :=
          (List.take_sublist _ _).subset hx
        refine List.mem_filter.mpr ⟨hperm.mem_iff.mp hxsrt, ?_⟩
        have hxD : x ∈ performCleanup now rd maxStr files := by
          rw [hDeq]
          exact List.mem_append_right _ hx
        exact List.any_eq_true.mpr ⟨x, hxD, decide_eq_true rfl⟩
      have hnd_srt : ((sortByScore files).map StoredFile.path).Nodup :=
        ((hperm.map StoredFile.path).nodup_iff).mpr hnodup
      have hnd_take : ((sortByScore files).take k).Nodup := by
        apply List.Nodup.of_map StoredFile.path
        rw [List.map_take]
        exact hnd_srt.sublist (List.take_sublist _ _)
      have hsubperm := List.subperm_of_subset hnd_take htake_sub
      have hpos_matched : ∀ f ∈ (files.filter fun f =>
            (performCleanup now rd maxStr files).any fun d => d.path = f.path),
          0 ≤ f.size :=
        fun f hf => hpos f (List.mem_filter.mp hf).1
      have hsum_take := totalStoredSize_subperm_le hsubperm hpos_matched
      have hremeq : remainingFiles files (performCleanup now rd maxStr files)
          = files.filter fun f =>
            !((performCleanup now rd maxStr files).any fun d => d.path = f.path) :=
        rfl
      rw [hremeq]
      omega
    case neg =>
      right
      have hkeq : k = (sortByScore files).length :=
        le_antisymm hk (not_lt.mp hkend)
      have htk : (sortByScore files).take k = sortByScore files := by
        rw [hkeq]
        exact List.take_length _
      apply List.filter_eq_nil_iff.mpr
      intro f hf
      have hfD : f ∈ performCleanup now rd maxStr files := by
        rw [hDeq]
        refine List.mem_append_right _ ?_
        rw [htk]
        exact hperm.mem_iff.mpr hf
      simp only [Bool.not_eq_true', Bool.not_eq_false, List.any_eq_true]
      exact ⟨f, hfD, decide_eq_true rfl⟩

/-- C8 (amended): after a storage retention run, every stored file whose
age exceeds `retentionDays` is deleted; when the total stored size exceeds
`maxStorageSize`, additional files are deleted in ascending order of value
score drawn from ALL listed files — not only those remaining after the age
deletions, so fresh low-score files can be deleted even when the age
deletions alone would reach the budget — until the running total is within
the budget; afterwards the remaining total is within the budget unless
every file was deleted.  In scenario S5 (six 20 GiB files, "100GB"
budget, all one day old) exactly the file with the lowest value score is
deleted, leaving a stored total of 100 GiB. -/
theorem c8_amended_retention_run (now rd : Int) (maxStr : String)
    (files : List StoredFile)
    (hnodup : (files.map StoredFile.path).Nodup)
    (hpos : ∀ f ∈ files, 0 ≤ f.size) :
    (∀ f ∈ files, now - f.storedAt > rd * 86400 →
        f ∈ performCleanup now rd maxStr files)
      ∧ (∃ k, performCleanup now rd maxStr files
            = (files.filter fun f => now - f.storedAt > rd * 86400)
              ++ (sortByScore files).take k
          ∧ (∀ j, j < k → totalStoredSize files
              - totalStoredSize ((sortByScore files).take j) > parseSize maxStr)
          ∧ (k < (sortByScore files).length → totalStoredSize files
              - totalStoredSize ((sortByScore files).take k) ≤ parseSize maxStr))
      ∧ (sortByScore files).Pairwise (fun a b => a.valueScore ≤ b.valueScore)
      ∧ List.Perm (sortByScore files) files
      ∧ (totalStoredSize (remainingFiles files
            (performCleanup now rd maxStr files)) ≤ parseSize maxStr
          ∨ remainingFiles files (performCleanup now rd maxStr files) = [])
      ∧ performCleanup 1000000 30 "100GB" s5Files = [s5File "b" 1]
      ∧ (∀ g ∈ s5Files, (s5File "b" 1).valueScore ≤ g.valueScore)
      ∧ totalStoredSize (remainingFiles s5Files
          (performCleanup 1000000 30 "100GB" s5Files)) = 107374182400 :=
  ⟨fun f hf hage => aged_file_marked now rd maxStr files f hf hage,
   retention_shape now rd maxStr files,
   sortByScore_pairwise files,
   sortByScore_perm files,
   retention_budget now rd maxStr files hnodup hpos,
   s5_deleted, s5_lowest, s5_remaining⟩

/-- Witness for C8 (amended) at the concrete S5 run: the hypotheses
(distinct paths, non-negative sizes) hold for the six S5 files. -/
theorem c8_witness :
    (∀ f ∈ s5Files, (1000000 : Int) - f.storedAt > 30 * 86400 →
        f ∈ performCleanup 1000000 30 "100GB" s5Files)
      ∧ (∃ k, performCleanup 1000000 30 "100GB" s5Files
            = (s5Files.filter fun f => (1000000 : Int) - f.storedAt > 30 * 86400)
              ++ (sortByScore s5Files).take k
          ∧ (∀ j, j < k → totalStoredSize s5Files
              - totalStoredSize ((sortByScore s5Files).take j) > parseSize "100GB")
          ∧ (k < (sortByScore s5Files).length → totalStoredSize s5Files
              - totalStoredSize ((sortByScore s5Files).take k) ≤ parseSize "100GB"))
      ∧ (sortByScore s5Files).Pairwise (fun a b => a.valueScore ≤ b.valueScore)
      ∧ List.Perm (sortByScore s5Files) s5Files
      ∧ (totalStoredSize (remainingFiles s5Files
            (performCleanup 1000000 30 "100GB" s5Files)) ≤ parseSize "100GB"
          ∨ remainingFiles s5Files (performCleanup 1000000 30 "100GB" s5Files) = [])
      ∧ performCleanup 1000000 30 "100GB" s5Files = [s5File "b" 1]
      ∧ (∀ g ∈ s5Files, (s5File "b" 1).valueScore ≤ g.valueScore)
      ∧ totalStoredSize (remainingFiles s5Files
          (performCleanup 1000000 30 "100GB" s5Files)) = 107374182400 :=
  c8_amended_retention_run 1000000 30 "100GB" s5Files (by decide) (by decide)

/-! ## Claim C9 -/

/-- C9: every `StoredFile` produced by the local backend's List has
`ValueScore = 0` and an empty `InstanceName` — only the relative path, the
size and the modification time come from the walked entry — so the
size-based retention pass sorts files whose value scores are all equal. -/
theorem c9_list_zero_score (basePath : String) (entries : List FSEntry)
    (f : StoredFile) (hf : f ∈ localBackendList basePath entries) :
    f.valueScore = 0 ∧ f.instanceName = ""
      ∧ ∃ e ∈ entries, e.isDir = false ∧ f.path = relPath basePath e.path
          ∧ f.size = e.size ∧ f.storedAt = e.modTime := by
  simp only [localBackendList, List.mem_map, List.mem_filter] at hf
  obtain ⟨e, ⟨he, hd⟩, rfl⟩ := hf
  refine ⟨rfl, rfl, e, he, ?_, rfl, rfl, rfl⟩
  simpa using hd

/-- A concrete walked file entry under basePath `/data`. -/
def entry₀ : FSEntry :=
  { path := "/data/rel1/x.core.gz", size := 7, modTime := 5, isDir := false }

/-- The record List builds for `entry₀`. -/
def listed₀ : StoredFile :=
  { path := "rel1/x.core.gz", size := 7, storedAt := 5, valueScore := 0,
    instanceName := "" }

lemma listed₀_mem : listed₀ ∈ localBackendList "/data" [entry₀] := by
  have hrel : relPath "/data" "/data/rel1/x.core.gz" = "rel1/x.core.gz" := by
    decide
  simp [localBackendList, entry₀, listed₀, hrel]

/-- Witness for C9 at the concrete entry. -/
theorem c9_witness :
    listed₀.valueScore = 0 ∧ listed₀.instanceName = ""
      ∧ ∃ e ∈ [entry₀], e.isDir = false ∧ listed₀.path = relPath "/data" e.path
          ∧ listed₀.size = e.size ∧ listed₀.storedAt = e.modTime :=
  c9_list_zero_score "/data" [entry₀] listed₀ listed₀_mem

/-! ## Cleaner decommissioning (pkg/cleaner, `scheduleCleanup` and
`cleanupInstance`)

`scheduleCleanup` sleeps for `cleanupDelay`, re-checks the tracker's
`Cleaned` flag under the mutex, sets it, and calls `cleanupInstance`,
which looks the instance up in the discovery view and runs the
deployment-flavour action: `helm uninstall` for Helm instances, an
orchestrator-API deletion for operator instances.  The embedding records
the externally visible actions of one `scheduleCleanup` run as a trace;
the function body contains no call to the controller client
(`Client.RequestCleanup` has no caller in the repository), so no
permission-request action can ever appear. -/

/-- The externally visible actions a cleaner run can perform.
`requestCleanupPermission` is the controller arbitration call of
`controller.Client.RequestCleanup`; the other two decommission the
workload. -/
inductive CleanerAction where
  | requestCleanupPermission (instanceName ns : String)
  | helmUninstall (release ns : String)
  | operatorDelete (instanceName ns : String)
  deriving DecidableEq, Repr

/-- Package-manager uninstalls and orchestrator-API deletions are the
decommission actions. -/
def CleanerAction.isDecommission : CleanerAction → Bool
  | .helmUninstall _ _ => true
  | .operatorDelete _ _ => true
  | .requestCleanupPermission _ _ => false

/-- Association-list read of the discovery instance view
(`discovery.GetInstances()[key].Type`, with the deployment flavour as the
Go string "helm" / "operator"). -/
def lookupAssoc : List (String × String) → String → Option String
  | [], _ => none
  | (k, v) :: rest, key => if k = key then some v else lookupAssoc rest key

/-- `cleanupInstance` (cleaner): instance not found or an unsupported
deployment type is an error without action; otherwise the flavour's
decommission action runs. -/
def cleanupInstanceActions (instances : List (String × String))
    (instanceName ns : String) : List CleanerAction :=
  let instanceKey := ns ++ "/" ++ instanceName
  match lookupAssoc instances instanceKey with
  | none => []
  | some dtype =>
    if dtype = "helm" then [.helmUninstall instanceName ns]
    else if dtype = "operator" then [.operatorDelete instanceName ns]
    else []

/-- `scheduleCleanup` (cleaner): after the delay, skip when the tracker is
already `Cleaned`, otherwise mark it and run `cleanupInstance`. -/
def scheduleCleanupActions (cleaned : Bool)
    (instances : List (String × String)) (instanceName ns : String) :
    List CleanerAction :=
  if cleaned then [] else cleanupInstanceActions instances instanceName ns

/-- The controller arbitration call. -/
def CleanerAction.isArbitration : CleanerAction → Bool
  | .requestCleanupPermission _ _ => true
  | .helmUninstall _ _ => false
  | .operatorDelete _ _ => false

/-- The property claim C4 asserts of a cleaner run: every decommission
action is preceded by a controller permission request. -/
def arbitratedTrace (tr : List CleanerAction) : Prop :=
  ∀ i : Fin tr.length, (tr.get i).isDecommission = true →
    ∃ j : Fin tr.length, j.val < i.val ∧ (tr.get j).isArbitration = true

instance (tr : List CleanerAction) : Decidable (arbitratedTrace tr) := by
  unfold arbitratedTrace
  infer_instance

/-! ## Claim C4 -/

/-- C4 (counterexample): a cleaner run on an un-cleaned tracker for the
Helm instance ns1/rel1 uninstalls the release with no preceding controller
permission request — the claim "never performs a decommission action
without first asking the controller" is false on this run. -/
theorem c4_counterexample_no_arbitration :
    scheduleCleanupActions false [("ns1/rel1", "helm")] "rel1" "ns1"
        = [.helmUninstall "rel1" "ns1"]
      ∧ ¬ arbitratedTrace
          (scheduleCleanupActions false [("ns1/rel1", "helm")] "rel1" "ns1") := by
  refine ⟨by decide, by decide⟩

/-- C4 (amended): the cleaner decommissions without controller
arbitration: every action a `scheduleCleanup` run emits is a decommission
action (a permission request never appears — `Client.RequestCleanup` has
no caller), and actions are emitted only when the tracker was not already
`Cleaned`.  Denial or unreachability of the controller therefore cannot
stop a cleanup round. -/
theorem c4_amended_unarbitrated_cleanup (cleaned : Bool)
    (instances : List (String × String)) (instanceName ns : String)
    (a : CleanerAction)
    (ha : a ∈ scheduleCleanupActions cleaned instances instanceName ns) :
    a.isDecommission = true ∧ cleaned = false := by
  cases cleaned with
  | true => simp [scheduleCleanupActions] at ha
  | false =>
    refine ⟨?_, rfl⟩
    simp only [scheduleCleanupActions, if_neg Bool.false_ne_true,
      cleanupInstanceActions] at ha
    rcases hl : lookupAssoc instances (ns ++ "/" ++ instanceName) with _ | dtype
    · rw [hl] at ha; cases ha
    · rw [hl] at ha
      have ha' : a ∈ (if dtype = "helm" then
          [CleanerAction.helmUninstall instanceName ns]
        else if dtype = "operator" then
          [CleanerAction.operatorDelete instanceName ns]
        else []) := ha
      split_ifs at ha' with h1 h2 <;>
        first
          | (rcases List.mem_singleton.mp ha' with rfl; rfl)
          | cases ha' 

/-- Witness for C4 (amended): the concrete Helm uninstall emitted for
ns1/rel1 is a decommission action on an un-cleaned tracker. -/
theorem c4_witness :
    (CleanerAction.helmUninstall "rel1" "ns1").isDecommission = true
      ∧ false = false :=
  c4_amended_unarbitrated_cleanup false [("ns1/rel1", "helm")] "rel1" "ns1"
    (.helmUninstall "rel1" "ns1") (by decide)

end MDP
